import Mathlib

/-!
Shallow embedding of the Importador-Yungas phase-1 extraction pipeline
(files drive_utils.py, extrator_drive.py, diagnostico_tipos_de_arquivo.py)
together with proofs settling the spec claims.

Python strings are modelled as Lean String (a list of unicode scalar
values, matching Python code-point semantics for the inputs at hand);
machine integers are Nat with explicit reduction mod 2 ^ 32 where the MD5
code overflows.  External collaborators (the Drive API service, the json
parser, the per-attempt network transfer) are modelled as explicit
function parameters, the way the spec itself treats them as injected
collaborators.
-/

set_option maxRecDepth 4096

/-- Python len of a string counts code points, exactly String.length. -/
def takeChars (s : String) (n : Nat) : String := String.mk (s.data.take n)

/-- Python slice s[:k] for an Int k: for nonnegative k the first k code
points (clamped), for negative k all but the last (-k) code points
(clamped at the empty string). -/
def pySliceTo (s : String) (k : Int) : String :=
  if 0 ≤ k then takeChars s k.toNat
  else takeChars s ((s.length : Int) + k).toNat

/-- Whitespace set of the regex class backslash-s and of str.strip, for
the ASCII range (the only one the claims exercise). -/
def pyIsSpace (c : Char) : Bool :=
  c == ' ' || c == '\t' || c == '\n' || c == '\r' || c == '\x0b' || c == '\x0c'

/-- Core of re.sub collapsing every maximal whitespace run to one space;
the flag records whether the previous character was part of a run. -/
def collapseWsGo (prevSpace : Bool) : List Char → List Char
  | [] => []
  | c :: rest =>
    if pyIsSpace c then
      if prevSpace then collapseWsGo true rest
      else ' ' :: collapseWsGo true rest
    else c :: collapseWsGo false rest

/-- Python str.strip: drop whitespace from both ends. -/
def stripWs (cs : List Char) : List Char :=
  ((cs.dropWhile pyIsSpace).reverse.dropWhile pyIsSpace).reverse

/-- The fixed forbidden-character list invalid_os_chars of
_sanitize_path_component in drive_utils.py. -/
def invalid_os_chars : List Char := ['/', '\\', ':', '*', '?', '"', '<', '>', '|']

/-- Lines 31-35 of drive_utils.py: replace CR and LF by spaces, collapse
whitespace runs, strip, then replace each forbidden character by a dash.
Each replacement maps one character to one character, so the sequential
str.replace calls equal a single map. -/
def cleanName (name : String) : String :=
  let s1 := name.data.map (fun c => if c == '\n' || c == '\r' then ' ' else c)
  let s2 := stripWs (collapseWsGo false s1)
  String.mk (s2.map (fun c => if invalid_os_chars.contains c then '-' else c))

/-- Last index of a character satisfying p, accumulator style. -/
def lastIdxPGo (p : Char → Bool) (i : Nat) (best : Option Nat) : List Char → Option Nat
  | [] => best
  | c :: rest => lastIdxPGo p (i + 1) (if p c then some i else best) rest

def lastIdxP (p : Char → Bool) (cs : List Char) : Option Nat := lastIdxPGo p 0 none cs

/-- Model of os.path.splitext (ntpath: separators are slash and
backslash, extension separator is the dot).  The extension starts at the
last dot of the basename provided some non-dot basename character
precedes it; otherwise the extension is empty. -/
def splitext (pth : String) : String × String :=
  let cs := pth.data
  let sepIdx : Int :=
    match lastIdxP (fun c => c == '/' || c == '\\') cs with
    | some i => (i : Int)
    | none => -1
  let dotIdx : Int :=
    match lastIdxP (fun c => c == '.') cs with
    | some i => (i : Int)
    | none => -1
  if dotIdx > sepIdx then
    let fi := (sepIdx + 1).toNat
    if ((cs.drop fi).take (dotIdx.toNat - fi)).any (fun c => c != '.') then
      (String.mk (cs.take dotIdx.toNat), String.mk (cs.drop dotIdx.toNat))
    else (pth, "")
  else (pth, "")

/-! UTF-8 encoding of a code-point list, the model of str.encode. -/

def utf8EncodeChar (c : Char) : List Nat :=
  let n := c.toNat
  if n < 128 then [n]
  else if n < 2048 then [192 + n / 64, 128 + n % 64]
  else if n < 65536 then [224 + n / 4096, 128 + n / 64 % 64, 128 + n % 64]
  else [240 + n / 262144, 128 + n / 4096 % 64, 128 + n / 64 % 64, 128 + n % 64]

def utf8Encode (cs : List Char) : List Nat := (cs.map utf8EncodeChar).flatten

/-! MD5 over byte lists (model of hashlib.md5), arithmetic on Nat with
explicit reduction mod 2 ^ 32. -/

def m32 (x : Nat) : Nat := x % 4294967296

def rotl32 (x n : Nat) : Nat := m32 ((x <<< n) ||| (x >>> (32 - n)))

def md5K : List Nat :=
  [0xd76aa478, 0xe8c7b756, 0x242070db, 0xc1bdceee, 0xf57c0faf, 0x4787c62a,
   0xa8304613, 0xfd469501, 0x698098d8, 0x8b44f7af, 0xffff5bb1, 0x895cd7be,
   0x6b901122, 0xfd987193, 0xa679438e, 0x49b40821, 0xf61e2562, 0xc040b340,
   0x265e5a51, 0xe9b6c7aa, 0xd62f105d, 0x02441453, 0xd8a1e681, 0xe7d3fbc8,
   0x21e1cde6, 0xc33707d6, 0xf4d50d87, 0x455a14ed, 0xa9e3e905, 0xfcefa3f8,
   0x676f02d9, 0x8d2a4c8a, 0xfffa3942, 0x8771f681, 0x6d9d6122, 0xfde5380c,
   0xa4beea44, 0x4bdecfa9, 0xf6bb4b60, 0xbebfbc70, 0x289b7ec6, 0xeaa127fa,
   0xd4ef3085, 0x04881d05, 0xd9d4d039, 0xe6db99e5, 0x1fa27cf8, 0xc4ac5665,
   0xf4292244, 0x432aff97, 0xab9423a7, 0xfc93a039, 0x655b59c3, 0x8f0ccc92,
   0xffeff47d, 0x85845dd1, 0x6fa87e4f, 0xfe2ce6e0, 0xa3014314, 0x4e0811a1,
   0xf7537e82, 0xbd3af235, 0x2ad7d2bb, 0xeb86d391]

def md5S : List Nat :=
  [7, 12, 17, 22, 7, 12, 17, 22, 7, 12, 17, 22, 7, 12, 17, 22,
   5, 9, 14, 20, 5, 9, 14, 20, 5, 9, 14, 20, 5, 9, 14, 20,
   4, 11, 16, 23, 4, 11, 16, 23, 4, 11, 16, 23, 4, 11, 16, 23,
   6, 10, 15, 21, 6, 10, 15, 21, 6, 10, 15, 21, 6, 10, 15, 21]

def wordsOfBytes : List Nat → List Nat
  | b0 :: b1 :: b2 :: b3 :: rest =>
    (b0 + b1 * 256 + b2 * 65536 + b3 * 16777216) :: wordsOfBytes rest
  | _ => []

def md5Step (M : List Nat) (st : Nat × Nat × Nat × Nat) (i : Nat) : Nat × Nat × Nat × Nat :=
  let a := st.1
  let b := st.2.1
  let c := st.2.2.1
  let d := st.2.2.2
  let fg : Nat × Nat :=
    if i < 16 then ((b &&& c) ||| ((4294967295 ^^^ b) &&& d), i)
    else if i < 32 then ((d &&& b) ||| ((4294967295 ^^^ d) &&& c), (5 * i + 1) % 16)
    else if i < 48 then (b ^^^ c ^^^ d, (3 * i + 5) % 16)
    else (c ^^^ (b ||| (4294967295 ^^^ d)), (7 * i) % 16)
  let f := m32 (fg.1 + a + md5K.getD i 0 + M.getD fg.2 0)
  (d, m32 (b + rotl32 f (md5S.getD i 0)), b, c)

def md5Chunk (st : Nat × Nat × Nat × Nat) (chunk : List Nat) : Nat × Nat × Nat × Nat :=
  let M := wordsOfBytes chunk
  let r := (List.range 64).foldl (md5Step M) st
  (m32 (st.1 + r.1), m32 (st.2.1 + r.2.1), m32 (st.2.2.1 + r.2.2.1), m32 (st.2.2.2 + r.2.2.2))

def chunks64 : List Nat → List (List Nat)
  | [] => []
  | b :: bs => ((b :: bs).take 64) :: chunks64 ((b :: bs).drop 64)
termination_by l => l.length
decreasing_by simp [List.length_drop]; omega

def toLE4 (x : Nat) : List Nat := [x % 256, x / 256 % 256, x / 65536 % 256, x / 16777216 % 256]

def toLE8 (x : Nat) : List Nat := toLE4 (x % 4294967296) ++ toLE4 (x / 4294967296)

def md5Pad (msg : List Nat) : List Nat :=
  msg ++ (128 :: List.replicate ((119 - msg.length % 64) % 64) 0)
      ++ toLE8 ((msg.length * 8) % 18446744073709551616)

def md5Bytes (msg : List Nat) : List Nat :=
  let st := (chunks64 (md5Pad msg)).foldl md5Chunk
    (0x67452301, 0xefcdab89, 0x98badcfe, 0x10325476)
  toLE4 st.1 ++ toLE4 st.2.1 ++ toLE4 st.2.2.1 ++ toLE4 st.2.2.2

/-- Lowercase hexadecimal digit for n below 16: code 48 is the zero
digit, code 87 + 10 is the letter a. -/
def hexDigit (n : Nat) : Char :=
  if n < 10 then Char.ofNat (48 + n) else Char.ofNat (87 + n)

def hexOfBytes (bs : List Nat) : List Char :=
  bs.foldr (fun b acc => hexDigit (b / 16 % 16) :: hexDigit (b % 16) :: acc) []

/-- hashlib.md5(bytes).hexdigest() on the UTF-8 encoding of a string. -/
def md5Hex (s : String) : String := String.mk (hexOfBytes (md5Bytes (utf8Encode s.data)))

/-- Embedding of _sanitize_path_component (drive_utils.py lines 29-46):
clean the name, return it when at most 150 characters, otherwise
truncate the root and append an 8-hex digest of the original name plus
the extension.  The try body is total here, so the except fallback of
line 46 is unreachable in the model. -/
def sanitize_path_component (name : String) : String :=
  let safe_name := cleanName name
  if safe_name.length ≤ 150 then safe_name
  else
    let p := splitext safe_name
    let hash_suffix := takeChars (md5Hex name) 8
    let available_len_for_root : Int := 150 - (p.2.length : Int) - 9
    let truncated_root := pySliceTo p.1 available_len_for_root
    truncated_root ++ "_" ++ hash_suffix ++ p.2

namespace Extrator

/-! Data model: one remote item as the Drive listing returns it, one page
of the paginated files.list protocol, and the server itself as an oracle
from folder id and page token to a page or a listing error. -/

structure DriveItem where
  id : String
  name : String
  mimeType : String
  md5Checksum : Option String
deriving DecidableEq, Repr

structure DrivePage where
  files : List DriveItem
  nextPageToken : Option String
deriving DecidableEq, Repr

def Server : Type := String → Option String → Except String DrivePage

/-- Task record of the ledger, one per non-folder item, as built at
lines 151-159 of drive_utils.py.  Status is one of the literal strings
pendente, concluido, falha, ignorado. -/
structure Task where
  id : String
  original_name : String
  safe_name : String
  relative_path : String
  md5Checksum : Option String
  mimeType : String
  status : String
deriving DecidableEq, Repr

/-- Result dictionary of download_file and export_google_doc. -/
structure TransferResult where
  status : String
  filepath : Option String
  attempts : Nat
  error : Option String
deriving DecidableEq, Repr

/-- Model of os.path.join with the Windows separator used by the
deployment; the walker later normalizes separators to forward slashes. -/
def pathJoin (p q : String) : String := if p = "" then q else p ++ "\\" ++ q

/-- Python replace of backslashes by forward slashes. -/
def replaceBackslashes (p : String) : String :=
  String.mk (p.data.map (fun c => if c == '\\' then '/' else c))

def ignored_mime_types : List String := ["application/vnd.google-apps.shortcut"]

/-- One files.list request-execute loop (the while of lines 142-162 of
drive_utils.py and 42-56 of diagnostico_tipos_de_arquivo.py).  The
request state is none once list_next found no continuation token in the
previous response; seenToken is the token as the CLIENT sees it after
the fields projection of the request; processPage turns the page items
into inventory entries.  On a listing error the accumulated entries are
returned, which models the except clause of the source: the Python local
list keeps everything appended before the exception.  The fuel bounds
the number of pages and only theorems with enough fuel are stated. -/
def drivePageLoop {α : Type} (execute : Option String → Except String DrivePage)
    (seenToken : DrivePage → Option String) (processPage : List DriveItem → List α) :
    Nat → Option (Option String) → List α → List α
  | _, none, acc => acc
  | 0, some _, acc => acc
  | pf + 1, some tok, acc =>
    match execute tok with
    | .error _ => acc
    | .ok page =>
      let acc2 := acc ++ processPage page.files
      match seenToken page with
      | some t => drivePageLoop execute seenToken processPage pf (some (some t)) acc2
      | none => drivePageLoop execute seenToken processPage pf none acc2

mutual

/-- Embedding of get_drive_file_inventory (drive_utils.py lines 132-166).
The request asks for fields files(id, name, mimeType, md5Checksum)
WITHOUT nextPageToken, so the executed response as seen by the client
never carries a continuation token: seenToken is the constant none.
depth bounds the folder recursion (a stand-in for the Python recursion
limit, whose error the except clause of the frame turns into an empty
contribution); pageFuel bounds the page loop. -/
def get_drive_file_inventory (server : Server) (folder_id : String) (parent_path : String)
    (depth pageFuel : Nat) : List Task :=
  match depth with
  | 0 => []
  | d + 1 =>
    drivePageLoop (fun tok => server folder_id tok) (fun _ => none)
      (fun items => gdfi_items server d pageFuel parent_path items) pageFuel (some none) []
termination_by (depth, 1, 0)

/-- Item loop of get_drive_file_inventory: recurse into folders, emit a
Task for every other item, status ignorado for the ignored mime types
and pendente otherwise. -/
def gdfi_items (server : Server) (d pageFuel : Nat) (parent_path : String) :
    List DriveItem → List Task
  | [] => []
  | item :: rest =>
    let safe_name := sanitize_path_component item.name
    let current_path := pathJoin parent_path safe_name
    (if item.mimeType = "application/vnd.google-apps.folder" then
      get_drive_file_inventory server item.id current_path d pageFuel
    else
      [{ id := item.id, original_name := item.name, safe_name := safe_name,
         relative_path := replaceBackslashes current_path,
         md5Checksum := item.md5Checksum, mimeType := item.mimeType,
         status := if item.mimeType ∈ ignored_mime_types then "ignorado" else "pendente" }])
      ++ gdfi_items server d pageFuel parent_path rest
termination_by items => (d, 2, items.length)

end

structure InvEntry where
  path : String
  mimeType : String
deriving DecidableEq, Repr

mutual

/-- Embedding of get_full_inventory_with_types
(diagnostico_tipos_de_arquivo.py lines 21-61).  Here the request fields
are nextPageToken, files(id, name, mimeType), so the client sees the
servers continuation token and the loop goes on to the next page. -/
def get_full_inventory_with_types (server : Server) (folder_id : String) (parent_path : String)
    (depth pageFuel : Nat) : List InvEntry :=
  match depth with
  | 0 => []
  | d + 1 =>
    drivePageLoop (fun tok => server folder_id tok) (fun page => page.nextPageToken)
      (fun items => gfit_items server d pageFuel parent_path items) pageFuel (some none) []
termination_by (depth, 1, 0)

/-- Item loop of the diagnostic walker: every item is emitted as an
entry, and folders are additionally recursed into. -/
def gfit_items (server : Server) (d pageFuel : Nat) (parent_path : String) :
    List DriveItem → List InvEntry
  | [] => []
  | item :: rest =>
    let safe_name := sanitize_path_component item.name
    let current_path := pathJoin parent_path safe_name
    ({ path := current_path, mimeType := item.mimeType } ::
      (if item.mimeType = "application/vnd.google-apps.folder" then
        get_full_inventory_with_types server item.id current_path d pageFuel
      else []))
      ++ gfit_items server d pageFuel parent_path rest
termination_by items => (d, 2, items.length)

end

/-! Transfer engine (drive_utils.py lines 75-129).  The per-attempt
network interaction is the injected collaborator attemptOutcome: for the
attempt number it either completes or fails with an error message.  The
returned list collects the sleep durations taken between attempts. -/

def DOWNLOAD_RETRIES : Nat := 3

def DOWNLOAD_DELAY_SECONDS : Nat := 5

def transferLoop (attemptOutcome : Nat → Except String Unit) (filepath : String)
    (retries delay attempt : Nat) : TransferResult × List Nat :=
  if attempt < retries then
    match attemptOutcome attempt with
    | .ok _ =>
      ({ status := "sucesso", filepath := some filepath, attempts := attempt + 1, error := none }, [])
    | .error e =>
      if attempt < retries - 1 then
        let out := transferLoop attemptOutcome filepath retries delay (attempt + 1)
        (out.1, delay :: out.2)
      else
        ({ status := "falha", filepath := none, attempts := attempt + 1, error := some e }, [])
  else
    ({ status := "falha", filepath := none, attempts := retries,
       error := some "Loop de tentativas finalizado inesperadamente." }, [])
termination_by retries - attempt
decreasing_by omega

/-- Embedding of download_file: the local path is folder slash safe
name, and the loop starts at attempt 0. -/
def download_file (attemptOutcome : Nat → Except String Unit) (safe_file_name download_folder : String)
    (retries delay : Nat) : TransferResult × List Nat :=
  transferLoop attemptOutcome (pathJoin download_folder safe_file_name) retries delay 0

/-- Embedding of export_google_doc: same retry loop, but the target path
replaces the extension of the safe name by .pdf. -/
def export_google_doc (attemptOutcome : Nat → Except String Unit) (safe_file_name download_folder : String)
    (retries delay : Nat) : TransferResult × List Nat :=
  transferLoop attemptOutcome
    (pathJoin download_folder ((splitext safe_file_name).1 ++ ".pdf")) retries delay 0

/-! Orchestrator (extrator_drive.py main, lines 167-200): one pass over
the ledger.  The disk is the list of expected-relative paths present
under the downloads directory; engine is the Transfer Engine as a
collaborator from the task to its result (main picks export_google_doc
or download_file by mime type before calling it).  The pass returns the
updated ledger together with the zero-based indices of the tasks for
which the engine was invoked; a successful transfer adds the expected
path to the disk, which is how the engine changes os.path.exists for
later iterations. -/

/-- Prefix test over code-point lists. -/
def startsWithChars : List Char → List Char → Bool
  | [], _ => true
  | x :: xs, hay =>
    match hay with
    | [] => false
    | y :: ys => x == y && startsWithChars xs ys

/-- Python substring containment, needle in hay. -/
def containsChars (needle : List Char) : List Char → Bool
  | [] => needle.isEmpty
  | c :: rest => startsWithChars needle (c :: rest) || containsChars needle rest

/-- Expected local path of a task, lines 168-171: the pdf-renamed path
when the mime type contains google-apps, the raw relative path
otherwise. -/
def expectedRelPath (t : Task) : String :=
  if containsChars "google-apps".data t.mimeType.data then
    (splitext t.relative_path).1 ++ ".pdf"
  else t.relative_path

def runPassGo (engine : Task → TransferResult) (disk : List String) (idx : Nat) :
    List Task → List Task × List Nat
  | [] => ([], [])
  | t :: rest =>
    let expected := expectedRelPath t
    if (t.status = "concluido" ∨ t.status = "ignorado") ∨
        (t.status = "pendente" ∧ expected ∈ disk) then
      let t2 := if t.status = "pendente" then { t with status := "concluido" } else t
      let out := runPassGo engine disk (idx + 1) rest
      (t2 :: out.1, out.2)
    else if t.status = "pendente" then
      let r := engine t
      let t2 := { t with status := r.status }
      let disk2 := if r.status = "sucesso" then expected :: disk else disk
      let out := runPassGo engine disk2 (idx + 1) rest
      (t2 :: out.1, idx :: out.2)
    else
      let out := runPassGo engine disk (idx + 1) rest
      (t :: out.1, out.2)

def runPass (engine : Task → TransferResult) (disk : List String) (tasks : List Task) :
    List Task × List Nat :=
  runPassGo engine disk 0 tasks

/-! Task ledger load (extrator_drive.py lines 22-33).  The file system
state distinguishes a missing file, a file whose open or read raises
IOError, and a file with given byte content.  The json parser is the
injected collaborator parseJson; its failure models
json.JSONDecodeError.  A result .error models an exception escaping
load_state uncaught. -/

inductive FileState
  | absent
  | unreadable
  | content (bytes : List Nat)

def isCont (b : Nat) : Bool := 128 ≤ b && b < 192

/-- Strict UTF-8 decoding, the model of reading a file opened with
encoding utf-8: none models a UnicodeDecodeError. -/
def utf8Decode : List Nat → Option (List Char)
  | [] => some []
  | b :: rest =>
    if b < 128 then (utf8Decode rest).map (fun cs => Char.ofNat b :: cs)
    else if 194 ≤ b && b ≤ 223 then
      match rest with
      | c1 :: rest2 =>
        if isCont c1 then
          (utf8Decode rest2).map (fun cs => Char.ofNat ((b - 192) * 64 + (c1 - 128)) :: cs)
        else none
      | [] => none
    else if b == 224 then
      match rest with
      | c1 :: c2 :: rest2 =>
        if (160 ≤ c1 && c1 ≤ 191) && isCont c2 then
          (utf8Decode rest2).map
            (fun cs => Char.ofNat ((b - 224) * 4096 + (c1 - 128) * 64 + (c2 - 128)) :: cs)
        else none
      | _ => none
    else if (225 ≤ b && b ≤ 236) || b == 238 || b == 239 then
      match rest with
      | c1 :: c2 :: rest2 =>
        if isCont c1 && isCont c2 then
          (utf8Decode rest2).map
            (fun cs => Char.ofNat ((b - 224) * 4096 + (c1 - 128) * 64 + (c2 - 128)) :: cs)
        else none
      | _ => none
    else if b == 237 then
      match rest with
      | c1 :: c2 :: rest2 =>
        if (128 ≤ c1 && c1 ≤ 159) && isCont c2 then
          (utf8Decode rest2).map
            (fun cs => Char.ofNat ((b - 224) * 4096 + (c1 - 128) * 64 + (c2 - 128)) :: cs)
        else none
      | _ => none
    else if b == 240 then
      match rest with
      | c1 :: c2 :: c3 :: rest2 =>
        if ((144 ≤ c1 && c1 ≤ 191) && isCont c2) && isCont c3 then
          (utf8Decode rest2).map (fun cs => Char.ofNat
            ((b - 240) * 262144 + (c1 - 128) * 4096 + (c2 - 128) * 64 + (c3 - 128)) :: cs)
        else none
      | _ => none
    else if 241 ≤ b && b ≤ 243 then
      match rest with
      | c1 :: c2 :: c3 :: rest2 =>
        if (isCont c1 && isCont c2) && isCont c3 then
          (utf8Decode rest2).map (fun cs => Char.ofNat
            ((b - 240) * 262144 + (c1 - 128) * 4096 + (c2 - 128) * 64 + (c3 - 128)) :: cs)
        else none
      | _ => none
    else if b == 244 then
      match rest with
      | c1 :: c2 :: c3 :: rest2 =>
        if ((128 ≤ c1 && c1 ≤ 143) && isCont c2) && isCont c3 then
          (utf8Decode rest2).map (fun cs => Char.ofNat
            ((b - 240) * 262144 + (c1 - 128) * 4096 + (c2 - 128) * 64 + (c3 - 128)) :: cs)
        else none
      | _ => none
    else none

/-- Embedding of load_state.  The except clause catches exactly
json.JSONDecodeError and IOError; a UnicodeDecodeError raised while the
text stream decodes the bytes matches neither and escapes, which the
.error result records. -/
def load_state (parseJson : String → Except Unit (List Task)) (file : FileState) :
    Except String (Option (List Task)) :=
  match file with
  | .absent => .ok none
  | .unreadable => .ok none
  | .content bytes =>
    match utf8Decode bytes with
    | none => .error "UnicodeDecodeError"
    | some text =>
      match parseJson (String.mk text) with
      | .error _ => .ok none
      | .ok tasks => .ok (some tasks)

/-! Verifier (extrator_drive.py lines 75-87) and the post-pass tail of
main (lines 208-228). -/

/-- Code-point lexicographic at-most, the order Python sorted uses on
strings. -/
def lexLe : List Char → List Char → Bool
  | [], _ => true
  | x :: xs, other =>
    match other with
    | [] => false
    | y :: ys => if x < y then true else if x = y then lexLe xs ys else false

def pyStrLe (a b : String) : Bool := lexLe a.data b.data

def insertSorted (x : String) : List String → List String
  | [] => [x]
  | y :: ys => if pyStrLe x y then x :: y :: ys else y :: insertSorted x ys

/-- Model of sorted on a list of strings. -/
def sortStrings : List String → List String
  | [] => []
  | x :: xs => insertSorted x (sortStrings xs)

/-- Embedding of verify_downloads: success exactly when the set
difference of expected minus actual is empty, and the reported missing
paths in sorted order otherwise. -/
def verify_downloads (drive_inventory local_inventory : List String) : Bool × List String :=
  let drive_set := drive_inventory.dedup
  let missing_files := drive_set.filter (fun p => !(local_inventory.contains p))
  if missing_files.isEmpty then (true, [])
  else (false, sortStrings missing_files)

/-- Lines 209-218 of main: the expected-path set handed to the verifier,
excluding tasks with status ignorado or falha and pdf-renaming the
provider-document paths (the same computation as expectedRelPath). -/
def expectedInventory (tasks : List Task) : List String :=
  tasks.filterMap (fun t =>
    if t.status = "ignorado" ∨ t.status = "falha" then none
    else some (expectedRelPath t))

structure RunOutcome where
  verified : Bool
  backupInvoked : Bool
  reportedSuccess : Bool
deriving DecidableEq, Repr

/-- Lines 208-228 of main: verify, then create the backup and report
success only when verification succeeded. -/
def finishRun (tasks : List Task) (local_inventory : List String) : RunOutcome :=
  let is_download_complete := (verify_downloads (expectedInventory tasks) local_inventory).1
  if is_download_complete then
    { verified := is_download_complete, backupInvoked := true, reportedSuccess := true }
  else
    { verified := is_download_complete, backupInvoked := false, reportedSuccess := false }

/-! Concrete instances used by witnesses and counterexamples. -/

/-- Name whose cleaned form has 151 characters, a one-character root and
a 150-character extension: the root budget 150 - 150 - 9 is negative. -/
def c3CEx : String := "a." ++ String.mk (List.replicate 149 'b')

/-- Name of 151 identical characters: cleaned form exceeds 150 and has
an empty extension. -/
def c3W : String := String.mk (List.replicate 151 'c')

/-- Server with one folder of two pages: page one holds file idA and a
continuation token, page two holds file idB. -/
def srvC2 : Server := fun fid tok =>
  if fid = "rootC2" then
    match tok with
    | none => .ok ⟨[DriveItem.mk "idA" "a.txt" "text/plain" none], some "page2tok"⟩
    | some t =>
      if t = "page2tok" then .ok ⟨[DriveItem.mk "idB" "b.txt" "text/plain" none], none⟩
      else .error "bad token"
  else .error "unknown folder"

/-- Server whose folder bad fails to list. -/
def srvC9 : Server := fun fid _ =>
  if fid = "bad" then .error "down"
  else .ok ⟨[DriveItem.mk "idF" "f.txt" "text/plain" none], none⟩

def c9FolderItem : DriveItem :=
  DriveItem.mk "bad" "pasta" "application/vnd.google-apps.folder" none

def c9ItemA : DriveItem := DriveItem.mk "idA9" "x.txt" "text/plain" none

def c9ItemB : DriveItem := DriveItem.mk "idB9" "y.txt" "text/plain" none

/-- Transfer engine stub reporting immediate success. -/
def engineOk : Task → TransferResult := fun _ => TransferResult.mk "sucesso" none 1 none

/-- Per-attempt outcome that always fails. -/
def attemptAlwaysFail : Nat → Except String Unit := fun _ => .error "boom"

def c1Task : Task := Task.mk "id1" "x.txt" "x.txt" "x.txt" none "text/plain" "pendente"

def c4Tasks : List Task :=
  [Task.mk "id1" "x.txt" "x.txt" "x.txt" none "text/plain" "concluido",
   Task.mk "id2" "y.txt" "y.txt" "d/y.txt" none "text/plain" "concluido"]

def c6Tasks : List Task :=
  [Task.mk "id1" "x.txt" "x.txt" "x.txt" none "text/plain" "concluido"]

def c10Tasks : List Task :=
  [Task.mk "id1" "a.txt" "a.txt" "a.txt" none "text/plain" "concluido",
   Task.mk "id2" "b.txt" "b.txt" "b.txt" none "text/plain" "falha"]

def parseAlwaysOk : String → Except Unit (List Task) := fun _ => .ok []

def parseAlwaysErr : String → Except Unit (List Task) := fun _ => .error ()

end Extrator

/-! General helper lemmas. -/

theorem str_length_append (a b : String) : (a ++ b).length = a.length + b.length := by
  cases a with
  | mk da =>
    cases b with
    | mk db => exact List.length_append da db

theorem takeChars_length (s : String) (n : Nat) : (takeChars s n).length = min n s.length :=
  List.length_take n s.data

theorem hexOfBytes_length (bs : List Nat) : (hexOfBytes bs).length = 2 * bs.length := by
  induction bs with
  | nil => rfl
  | cons b t ih =>
    show (hexDigit (b / 16 % 16) :: hexDigit (b % 16) :: hexOfBytes t).length = 2 * (t.length + 1)
    simp [ih]
    omega

theorem md5Bytes_length (msg : List Nat) : (md5Bytes msg).length = 16 := by
  unfold md5Bytes
  simp [toLE4, List.length_append]

theorem md5Hex_length (s : String) : (md5Hex s).length = 32 := by
  show (hexOfBytes (md5Bytes (utf8Encode s.data))).length = 32
  rw [hexOfBytes_length, md5Bytes_length]

/-- C3 (counterexample): a name whose cleaned form has 151 characters, a
one-character root and a 150-character extension makes the root budget
150 - 150 - 9 negative; the Python negative slice empties the root and
the result, underscore plus 8 digest characters plus the extension, has
159 characters, refuting the bound of at most 150. -/
theorem claim_c3_counterexample :
    150 < (cleanName Extrator.c3CEx).length ∧
      ¬ ((sanitize_path_component Extrator.c3CEx).length ≤ 150) := by decide

/-- C3 (amended): whenever the cleaned name exceeds 150 characters the
truncation branch runs, and whenever additionally the extension has at
most 141 characters, so that the root budget 150 - len(ext) - 9 is
nonnegative, the result has length at most 150. -/
theorem claim_c3_truncated_length (name : String)
    (hlong : 150 < (cleanName name).length)
    (hext : ((splitext (cleanName name)).2).length ≤ 141) :
    (sanitize_path_component name).length ≤ 150 := by
  simp only [sanitize_path_component]
  rw [if_neg (by omega)]
  have h8 : (takeChars (md5Hex name) 8).length = 8 := by
    rw [takeChars_length, md5Hex_length]
    omega
  have havail : (0 : Int) ≤ 150 - ((splitext (cleanName name)).2.length : Int) - 9 := by omega
  have htoNat : ((150 : Int) - ((splitext (cleanName name)).2.length : Int) - 9).toNat =
      141 - (splitext (cleanName name)).2.length := by omega
  have htr : (pySliceTo (splitext (cleanName name)).1
      (150 - ((splitext (cleanName name)).2.length : Int) - 9)).length ≤
      141 - (splitext (cleanName name)).2.length := by
    rw [pySliceTo, if_pos havail, takeChars_length, htoNat]
    exact Nat.min_le_left _ _
  rw [str_length_append, str_length_append, str_length_append, h8]
  have hone : ("_" : String).length = 1 := rfl
  omega

/-- C3 (witness): a 151-character dotless name satisfies both
hypotheses and the amended bound. -/
theorem claim_c3_truncated_length_witness :
    150 < (cleanName Extrator.c3W).length ∧
      ((splitext (cleanName Extrator.c3W)).2).length ≤ 141 ∧
      (sanitize_path_component Extrator.c3W).length ≤ 150 :=
  ⟨by decide, by decide, claim_c3_truncated_length Extrator.c3W (by decide) (by decide)⟩

/-- C2: evaluation at the failing input.  The folder rootC2 has two
pages of children, yet get_drive_file_inventory (whose request fields
omit nextPageToken, so the client never sees the continuation token)
inventories only the first page, while the diagnostic walker
get_full_inventory_with_types (whose fields include nextPageToken)
enumerates both pages of the same server. -/
theorem claim_c2_first_page_only :
    Extrator.get_drive_file_inventory Extrator.srvC2 "rootC2" "" 3 3 =
      [Extrator.Task.mk "idA" "a.txt" "a.txt" "a.txt" none "text/plain" "pendente"]
    ∧ Extrator.get_full_inventory_with_types Extrator.srvC2 "rootC2" "" 3 3 =
      [Extrator.InvEntry.mk "a.txt" "text/plain", Extrator.InvEntry.mk "b.txt" "text/plain"] := by
  constructor
  · simp +decide [Extrator.get_drive_file_inventory, Extrator.gdfi_items,
      Extrator.drivePageLoop, Extrator.srvC2]
  · simp +decide [Extrator.get_full_inventory_with_types, Extrator.gfit_items,
      Extrator.drivePageLoop, Extrator.srvC2]

/-- C10: a ledger with one completed task (file present) and one failed
task passes verification and invokes the Backup Packager, because tasks
with status falha are excluded from the expected-path set. -/
theorem claim_c10_failed_task_still_backs_up :
    (Extrator.c10Tasks.any fun t => t.status == "falha") = true
    ∧ Extrator.expectedInventory Extrator.c10Tasks = ["a.txt"]
    ∧ (Extrator.finishRun Extrator.c10Tasks ["a.txt"]).verified = true
    ∧ (Extrator.finishRun Extrator.c10Tasks ["a.txt"]).backupInvoked = true := by
  decide

/-- C7 (counterexample): the file content consisting of the single byte
255 is not valid UTF-8; reading it raises a UnicodeDecodeError, which
the except clause (json.JSONDecodeError, IOError) does not catch, so
load_state propagates a hard failure regardless of the json parser. -/
theorem claim_c7_counterexample :
    Extrator.load_state Extrator.parseAlwaysErr (.content [255]) = .error "UnicodeDecodeError"
    ∧ Extrator.load_state Extrator.parseAlwaysOk (.content [255]) = .error "UnicodeDecodeError" :=
  ⟨rfl, rfl⟩

/-- C7 (amended): load_state returns absent for a missing file and
absent for an unreadable file; on content that decodes as UTF-8 the
json exception is caught and mapped to the absent signal .ok none when
the parse fails, and the parsed tasks are returned when it succeeds;
the only escaping failure is the UnicodeDecodeError of non-UTF-8
content. -/
theorem claim_c7_load_state_amended :
    ∀ (parseJson : String → Except Unit (List Extrator.Task)) (file : Extrator.FileState),
      (file = .absent → Extrator.load_state parseJson file = .ok none)
      ∧ (file = .unreadable → Extrator.load_state parseJson file = .ok none)
      ∧ (∀ bytes text, file = .content bytes → Extrator.utf8Decode bytes = some text →
          (∀ e2, parseJson (String.mk text) = .error e2 →
            Extrator.load_state parseJson file = .ok none)
          ∧ (∀ ts, parseJson (String.mk text) = .ok ts →
            Extrator.load_state parseJson file = .ok (some ts)))
      ∧ (∀ e, Extrator.load_state parseJson file = .error e →
          ∃ bytes, file = .content bytes ∧ Extrator.utf8Decode bytes = none) := by
  intro parseJson file
  cases file with
  | absent =>
    refine ⟨fun _ => rfl, ?_, ?_, ?_⟩
    · intro h
      cases h
    · intro bytes text h hdec
      cases h
    · intro e h
      simp [Extrator.load_state] at h
  | unreadable =>
    refine ⟨?_, fun _ => rfl, ?_, ?_⟩
    · intro h
      cases h
    · intro bytes text h hdec
      cases h
    · intro e h
      simp [Extrator.load_state] at h
  | content bytes =>
    refine ⟨?_, ?_, ?_, ?_⟩
    · intro h
      cases h
    · intro h
      cases h
    · intro bytes2 text h hdec
      cases h
      constructor
      · intro e2 hp
        simp [Extrator.load_state, hdec, hp]
      · intro ts hp
        simp [Extrator.load_state, hdec, hp]
    · intro e h
      cases hdec : Extrator.utf8Decode bytes with
      | none => exact ⟨bytes, rfl, hdec⟩
      | some text =>
        simp only [Extrator.load_state, hdec] at h
        cases hp : parseJson (String.mk text) with
        | error u => simp [hp] at h
        | ok v => simp [hp] at h

/-- C7 (witness): valid one-byte UTF-8 content whose json parse fails
is mapped to the absent signal, and a missing file also yields the
absent signal. -/
theorem claim_c7_load_state_amended_witness :
    Extrator.utf8Decode [110] = some ['n']
    ∧ Extrator.parseAlwaysErr (String.mk ['n']) = .error ()
    ∧ Extrator.load_state Extrator.parseAlwaysErr (.content [110]) = .ok none
    ∧ Extrator.load_state Extrator.parseAlwaysOk Extrator.FileState.absent = .ok none :=
  ⟨rfl, rfl,
    ((claim_c7_load_state_amended Extrator.parseAlwaysErr
        (.content [110])).2.2.1 [110] ['n'] rfl rfl).1 () rfl,
    (claim_c7_load_state_amended Extrator.parseAlwaysOk Extrator.FileState.absent).1 rfl⟩

/-- C6: the Backup Packager is invoked exactly when the Verifier
succeeded; on verification failure the backup step is skipped and the
run reports failure. -/
theorem claim_c6_backup_only_if_verified :
    ∀ (tasks : List Extrator.Task) (localInv : List String),
      ((Extrator.finishRun tasks localInv).backupInvoked = true ↔
        (Extrator.finishRun tasks localInv).verified = true)
      ∧ ((Extrator.finishRun tasks localInv).verified = false →
          (Extrator.finishRun tasks localInv).backupInvoked = false
          ∧ (Extrator.finishRun tasks localInv).reportedSuccess = false) := by
  intro tasks localInv
  unfold Extrator.finishRun
  cases hb : (Extrator.verify_downloads (Extrator.expectedInventory tasks) localInv).1 <;> simp [hb]

/-- C6 (witness): a ledger expecting a file that is not on disk fails
verification and the backup is skipped. -/
theorem claim_c6_backup_only_if_verified_witness :
    (Extrator.finishRun Extrator.c6Tasks []).verified = false
    ∧ (Extrator.finishRun Extrator.c6Tasks []).backupInvoked = false :=
  ⟨by decide, ((claim_c6_backup_only_if_verified Extrator.c6Tasks []).2 (by decide)).1⟩

/-- C8: the transfer engine makes at most 3 attempts with a fixed
5-unit sleep between attempts; when every attempt fails the result is a
failure carrying only the final attempt error with attempts 3, and when
attempts 1 and 2 fail but attempt 3 succeeds the result is a success
with attempts 3; the sleeps taken are always one fixed delay per extra
attempt. -/
theorem claim_c8_retry_policy :
    (∀ (att : Nat → Except String Unit) (sname folder e0 e1 e2 : String),
        att 0 = .error e0 → att 1 = .error e1 → att 2 = .error e2 →
        Extrator.download_file att sname folder Extrator.DOWNLOAD_RETRIES
            Extrator.DOWNLOAD_DELAY_SECONDS =
          (⟨"falha", none, 3, some e2⟩, [5, 5]))
    ∧ (∀ (att : Nat → Except String Unit) (sname folder e0 e1 : String),
        att 0 = .error e0 → att 1 = .error e1 → att 2 = .ok () →
        Extrator.download_file att sname folder 3 5 =
          (⟨"sucesso", some (Extrator.pathJoin folder sname), 3, none⟩, [5, 5]))
    ∧ (∀ (att : Nat → Except String Unit) (sname folder e0 e1 : String),
        att 0 = .error e0 → att 1 = .error e1 → att 2 = .ok () →
        Extrator.export_google_doc att sname folder 3 5 =
          (⟨"sucesso", some (Extrator.pathJoin folder ((splitext sname).1 ++ ".pdf")), 3, none⟩,
            [5, 5]))
    ∧ (∀ (att : Nat → Except String Unit) (sname folder : String),
        (Extrator.download_file att sname folder 3 5).1.attempts ≤ 3)
    ∧ (∀ (att : Nat → Except String Unit) (sname folder : String),
        (Extrator.download_file att sname folder 3 5).2 =
          List.replicate ((Extrator.download_file att sname folder 3 5).1.attempts - 1) 5) := by
  refine ⟨?_, ?_, ?_, ?_, ?_⟩
  · intro att sname folder e0 e1 e2 h0 h1 h2
    simp [Extrator.download_file, Extrator.transferLoop, Extrator.DOWNLOAD_RETRIES,
      Extrator.DOWNLOAD_DELAY_SECONDS, h0, h1, h2]
  · intro att sname folder e0 e1 h0 h1 h2
    simp [Extrator.download_file, Extrator.transferLoop, h0, h1, h2]
  · intro att sname folder e0 e1 h0 h1 h2
    simp [Extrator.export_google_doc, Extrator.transferLoop, h0, h1, h2]
  · intro att sname folder
    cases h0 : att 0 with
    | ok u => simp [Extrator.download_file, Extrator.transferLoop, h0]
    | error e0 =>
      cases h1 : att 1 with
      | ok u => simp [Extrator.download_file, Extrator.transferLoop, h0, h1]
      | error e1 =>
        cases h2 : att 2 with
        | ok u => simp [Extrator.download_file, Extrator.transferLoop, h0, h1, h2]
        | error e2 => simp [Extrator.download_file, Extrator.transferLoop, h0, h1, h2]
  · intro att sname folder
    cases h0 : att 0 with
    | ok u => simp [Extrator.download_file, Extrator.transferLoop, h0]
    | error e0 =>
      cases h1 : att 1 with
      | ok u => simp [Extrator.download_file, Extrator.transferLoop, h0, h1]
      | error e1 =>
        cases h2 : att 2 with
        | ok u => simp [Extrator.download_file, Extrator.transferLoop, h0, h1, h2]
        | error e2 => simp [Extrator.download_file, Extrator.transferLoop, h0, h1, h2]

/-- C8 (witness): the always-failing attempt oracle exercises the
all-attempts-fail clause. -/
theorem claim_c8_retry_policy_witness :
    Extrator.attemptAlwaysFail 0 = .error "boom"
    ∧ Extrator.attemptAlwaysFail 1 = .error "boom"
    ∧ Extrator.attemptAlwaysFail 2 = .error "boom"
    ∧ Extrator.download_file Extrator.attemptAlwaysFail "f.bin" "d" Extrator.DOWNLOAD_RETRIES
        Extrator.DOWNLOAD_DELAY_SECONDS = (⟨"falha", none, 3, some "boom"⟩, [5, 5]) :=
  ⟨rfl, rfl, rfl,
    claim_c8_retry_policy.1 Extrator.attemptAlwaysFail "f.bin" "d" "boom" "boom" "boom" rfl rfl rfl⟩

/-! Helper lemmas about the sort used in the verifier report. -/

theorem lexLe_total : ∀ as bs : List Char, Extrator.lexLe as bs = true ∨ Extrator.lexLe bs as = true := by
  intro as
  induction as with
  | nil => intro bs; left; rfl
  | cons a as2 ih =>
    intro bs
    cases bs with
    | nil => right; rfl
    | cons b bs2 =>
      rcases lt_trichotomy a b with h | h | h
      · left
        simp [Extrator.lexLe, h]
      · subst h
        rcases ih bs2 with h2 | h2
        · left
          simpa [Extrator.lexLe, lt_irrefl] using h2
        · right
          simpa [Extrator.lexLe, lt_irrefl] using h2
      · right
        simp [Extrator.lexLe, h]

theorem pyStrLe_total (a b : String) : Extrator.pyStrLe a b = true ∨ Extrator.pyStrLe b a = true :=
  lexLe_total a.data b.data

theorem mem_insertSorted (x p : String) :
    ∀ l, p ∈ Extrator.insertSorted x l ↔ p = x ∨ p ∈ l := by
  intro l
  induction l with
  | nil => simp [Extrator.insertSorted]
  | cons y ys ih =>
    simp only [Extrator.insertSorted]
    by_cases h : Extrator.pyStrLe x y = true
    · rw [if_pos h]
      simp [List.mem_cons]
    · rw [if_neg h]
      simp [List.mem_cons, ih]
      tauto

theorem chain_insertSorted (x : String) :
    ∀ l, List.Chain' (fun a b => Extrator.pyStrLe a b = true) l →
      List.Chain' (fun a b => Extrator.pyStrLe a b = true) (Extrator.insertSorted x l) := by
  intro l
  induction l with
  | nil =>
    intro _
    simp [Extrator.insertSorted]
  | cons y ys ih =>
    intro hch
    simp only [Extrator.insertSorted]
    by_cases hxy : Extrator.pyStrLe x y = true
    · rw [if_pos hxy]
      exact List.chain'_cons.mpr ⟨hxy, hch⟩
    · rw [if_neg hxy]
      have hyx : Extrator.pyStrLe y x = true := by
        rcases pyStrLe_total x y with h | h
        · exact absurd h hxy
        · exact h
      cases ys with
      | nil =>
        simp only [Extrator.insertSorted]
        exact List.chain'_cons.mpr ⟨hyx, List.chain'_singleton x⟩
      | cons z zs =>
        have hch2 := List.chain'_cons.mp hch
        have ihz := ih hch2.2
        simp only [Extrator.insertSorted] at ihz ⊢
        by_cases hxz : Extrator.pyStrLe x z = true
        · rw [if_pos hxz] at ihz ⊢
          exact List.chain'_cons.mpr ⟨hyx, ihz⟩
        · rw [if_neg hxz] at ihz ⊢
          exact List.chain'_cons.mpr ⟨hch2.1, ihz⟩

theorem chain_sortStrings :
    ∀ l, List.Chain' (fun a b => Extrator.pyStrLe a b = true) (Extrator.sortStrings l) := by
  intro l
  induction l with
  | nil => simp [Extrator.sortStrings]
  | cons x xs ih => exact chain_insertSorted x _ ih

theorem mem_sortStrings (p : String) : ∀ l, p ∈ Extrator.sortStrings l ↔ p ∈ l := by
  intro l
  induction l with
  | nil => simp [Extrator.sortStrings]
  | cons x xs ih =>
    simp [Extrator.sortStrings, mem_insertSorted, ih]

/-- Membership in the missing-files list built by verify_downloads. -/
theorem mem_missing_files (d l : List String) (p : String) :
    p ∈ d.dedup.filter (fun q => !(l.contains q)) ↔ p ∈ d ∧ p ∉ l := by
  simp [List.mem_filter, List.mem_dedup]

/-- C5: verify_downloads succeeds exactly when every expected path is
present; otherwise it fails and its report lists exactly the missing
paths, in code-point lexicographic order; in particular for expected
paths a/b.txt and c.txt with actual path a/b.txt it fails reporting
exactly c.txt. -/
theorem claim_c5_verify_reports_sorted_difference :
    (∀ (d l : List String),
        ((Extrator.verify_downloads d l).1 = true ↔ ∀ p ∈ d, p ∈ l)
        ∧ List.Chain' (fun a b => Extrator.pyStrLe a b = true) (Extrator.verify_downloads d l).2
        ∧ (∀ p, p ∈ (Extrator.verify_downloads d l).2 ↔ p ∈ d ∧ p ∉ l))
    ∧ Extrator.verify_downloads ["a/b.txt", "c.txt"] ["a/b.txt"] = (false, ["c.txt"]) := by
  constructor
  · intro d l
    have hEq : Extrator.verify_downloads d l =
        if (d.dedup.filter (fun q => !(l.contains q))).isEmpty = true then ((true : Bool), ([] : List String))
        else (false, Extrator.sortStrings (d.dedup.filter (fun q => !(l.contains q)))) := rfl
    cases hl : d.dedup.filter (fun q => !(l.contains q)) with
    | nil =>
      rw [hl] at hEq
      rw [if_pos (show (([] : List String).isEmpty = true) from rfl)] at hEq
      refine ⟨?_, ?_, ?_⟩
      · rw [hEq]
        constructor
        · intro _ p hp
          by_contra hco
          have hmem : p ∈ d.dedup.filter (fun q => !(l.contains q)) :=
            (mem_missing_files d l p).mpr ⟨hp, hco⟩
          rw [hl] at hmem
          cases hmem
        · intro _
          rfl
      · rw [hEq]
        exact List.chain'_nil
      · intro p
        rw [hEq]
        constructor
        · intro hp
          cases hp
        · intro hp
          have hmem : p ∈ d.dedup.filter (fun q => !(l.contains q)) :=
            (mem_missing_files d l p).mpr hp
          rw [hl] at hmem
          cases hmem
    | cons a as =>
      rw [hl] at hEq
      rw [if_neg (show ¬ (((a :: as) : List String).isEmpty = true) from by simp)] at hEq
      refine ⟨?_, ?_, ?_⟩
      · rw [hEq]
        simp only [Bool.false_eq_true, false_iff]
        intro hall
        have hpa : a ∈ d.dedup.filter (fun q => !(l.contains q)) := by
          rw [hl]
          exact List.mem_cons_self a as
        have hpd := (mem_missing_files d l a).mp hpa
        exact hpd.2 (hall a hpd.1)
      · rw [hEq]
        exact chain_sortStrings _
      · intro p
        rw [hEq]
        rw [show ((false, Extrator.sortStrings (a :: as)).2) = Extrator.sortStrings (a :: as) from rfl]
        rw [mem_sortStrings, ← hl, mem_missing_files]
  · decide

/-- C5 (witness): a present path verifies against itself. -/
theorem claim_c5_verify_reports_sorted_difference_witness :
    (Extrator.verify_downloads ["a"] ["a"]).1 = true :=
  (claim_c5_verify_reports_sorted_difference.1 ["a"] ["a"]).1.mpr (by decide)

/-! Helper lemmas about walker behaviour on listing errors. -/

/-- A folder whose first (and, without a visible continuation token,
only) listing request fails contributes no inventory entries. -/
theorem gdfi_listing_error (server : Extrator.Server) (fid pp : String) (depth pf : Nat)
    (e : String) (h : server fid none = .error e) :
    Extrator.get_drive_file_inventory server fid pp depth pf = [] := by
  cases depth with
  | zero => simp [Extrator.get_drive_file_inventory]
  | succ d =>
    cases pf with
    | zero => simp [Extrator.get_drive_file_inventory, Extrator.drivePageLoop]
    | succ pf2 => simp [Extrator.get_drive_file_inventory, Extrator.drivePageLoop, h]

/-- The item loop distributes over list append. -/
theorem gdfi_items_append (server : Extrator.Server) (d pf : Nat) (pp : String) :
    ∀ xs ys, Extrator.gdfi_items server d pf pp (xs ++ ys) =
      Extrator.gdfi_items server d pf pp xs ++ Extrator.gdfi_items server d pf pp ys := by
  intro xs ys
  induction xs with
  | nil => simp [Extrator.gdfi_items]
  | cons x xs2 ih =>
    simp only [List.cons_append, Extrator.gdfi_items, ih, List.append_assoc]

/-- C9: an error while listing a folder makes that subtree contribute
no entries, entries of sibling subtrees are unaffected, and the walk as
a whole still returns. -/
theorem claim_c9_listing_error_tolerated :
    (∀ (server : Extrator.Server) (folder_id parent_path : String) (depth pageFuel : Nat)
        (e : String),
        server folder_id none = .error e →
        Extrator.get_drive_file_inventory server folder_id parent_path depth pageFuel = [])
    ∧ (∀ (server : Extrator.Server) (d pageFuel : Nat) (parent_path : String)
        (pre post : List Extrator.DriveItem) (f : Extrator.DriveItem) (e : String),
        f.mimeType = "application/vnd.google-apps.folder" →
        server f.id none = .error e →
        Extrator.gdfi_items server d pageFuel parent_path (pre ++ f :: post) =
          Extrator.gdfi_items server d pageFuel parent_path pre ++
            Extrator.gdfi_items server d pageFuel parent_path post) := by
  constructor
  · intro server fid pp depth pf e h
    exact gdfi_listing_error server fid pp depth pf e h
  · intro server d pf pp pre post f e hf herr
    rw [gdfi_items_append]
    congr 1
    simp only [Extrator.gdfi_items]
    rw [if_pos hf, gdfi_listing_error server f.id _ d pf e herr]
    simp

/-- C9 (witness): the folder named bad fails to list; it contributes
nothing while its sibling files on both sides survive. -/
theorem claim_c9_listing_error_tolerated_witness :
    Extrator.c9FolderItem.mimeType = "application/vnd.google-apps.folder"
    ∧ Extrator.srvC9 "bad" none = Except.error "down"
    ∧ Extrator.gdfi_items Extrator.srvC9 2 2 ""
        ([Extrator.c9ItemA] ++ Extrator.c9FolderItem :: [Extrator.c9ItemB]) =
      Extrator.gdfi_items Extrator.srvC9 2 2 "" [Extrator.c9ItemA] ++
        Extrator.gdfi_items Extrator.srvC9 2 2 "" [Extrator.c9ItemB] :=
  ⟨rfl, rfl,
    claim_c9_listing_error_tolerated.2 Extrator.srvC9 2 2 "" [Extrator.c9ItemA]
      [Extrator.c9ItemB] Extrator.c9FolderItem "down" rfl rfl⟩

/-! Helper lemmas about the orchestration pass. -/

theorem runPassGo_skip_fst (engine : Extrator.Task → Extrator.TransferResult)
    (disk : List String) (idx : Nat) (t : Extrator.Task) (rest : List Extrator.Task)
    (h : (t.status = "concluido" ∨ t.status = "ignorado") ∨
      (t.status = "pendente" ∧ Extrator.expectedRelPath t ∈ disk)) :
    (Extrator.runPassGo engine disk idx (t :: rest)).1 =
      (if t.status = "pendente" then { t with status := "concluido" } else t) ::
        (Extrator.runPassGo engine disk (idx + 1) rest).1 := by
  simp only [Extrator.runPassGo]
  rw [if_pos h]

theorem runPassGo_skip_snd (engine : Extrator.Task → Extrator.TransferResult)
    (disk : List String) (idx : Nat) (t : Extrator.Task) (rest : List Extrator.Task)
    (h : (t.status = "concluido" ∨ t.status = "ignorado") ∨
      (t.status = "pendente" ∧ Extrator.expectedRelPath t ∈ disk)) :
    (Extrator.runPassGo engine disk idx (t :: rest)).2 =
      (Extrator.runPassGo engine disk (idx + 1) rest).2 := by
  simp only [Extrator.runPassGo]
  rw [if_pos h]

theorem runPassGo_engine_fst (engine : Extrator.Task → Extrator.TransferResult)
    (disk : List String) (idx : Nat) (t : Extrator.Task) (rest : List Extrator.Task)
    (h1 : ¬ ((t.status = "concluido" ∨ t.status = "ignorado") ∨
      (t.status = "pendente" ∧ Extrator.expectedRelPath t ∈ disk)))
    (h2 : t.status = "pendente") :
    (Extrator.runPassGo engine disk idx (t :: rest)).1 =
      { t with status := (engine t).status } ::
        (Extrator.runPassGo engine
          (if (engine t).status = "sucesso" then Extrator.expectedRelPath t :: disk else disk)
          (idx + 1) rest).1 := by
  simp only [Extrator.runPassGo]
  rw [if_neg h1, if_pos h2]

theorem runPassGo_engine_snd (engine : Extrator.Task → Extrator.TransferResult)
    (disk : List String) (idx : Nat) (t : Extrator.Task) (rest : List Extrator.Task)
    (h1 : ¬ ((t.status = "concluido" ∨ t.status = "ignorado") ∨
      (t.status = "pendente" ∧ Extrator.expectedRelPath t ∈ disk)))
    (h2 : t.status = "pendente") :
    (Extrator.runPassGo engine disk idx (t :: rest)).2 =
      idx :: (Extrator.runPassGo engine
        (if (engine t).status = "sucesso" then Extrator.expectedRelPath t :: disk else disk)
        (idx + 1) rest).2 := by
  simp only [Extrator.runPassGo]
  rw [if_neg h1, if_pos h2]

theorem runPassGo_other_fst (engine : Extrator.Task → Extrator.TransferResult)
    (disk : List String) (idx : Nat) (t : Extrator.Task) (rest : List Extrator.Task)
    (h1 : ¬ ((t.status = "concluido" ∨ t.status = "ignorado") ∨
      (t.status = "pendente" ∧ Extrator.expectedRelPath t ∈ disk)))
    (h2 : ¬ t.status = "pendente") :
    (Extrator.runPassGo engine disk idx (t :: rest)).1 =
      t :: (Extrator.runPassGo engine disk (idx + 1) rest).1 := by
  simp only [Extrator.runPassGo]
  rw [if_neg h1, if_neg h2]

theorem runPassGo_other_snd (engine : Extrator.Task → Extrator.TransferResult)
    (disk : List String) (idx : Nat) (t : Extrator.Task) (rest : List Extrator.Task)
    (h1 : ¬ ((t.status = "concluido" ∨ t.status = "ignorado") ∨
      (t.status = "pendente" ∧ Extrator.expectedRelPath t ∈ disk)))
    (h2 : ¬ t.status = "pendente") :
    (Extrator.runPassGo engine disk idx (t :: rest)).2 =
      (Extrator.runPassGo engine disk (idx + 1) rest).2 := by
  simp only [Extrator.runPassGo]
  rw [if_neg h1, if_neg h2]

/-- Every invoked index is at least the starting index of the walk. -/
theorem runPassGo_invoked_ge (engine : Extrator.Task → Extrator.TransferResult) :
    ∀ (tasks : List Extrator.Task) (disk : List String) (idx k : Nat),
      k ∈ (Extrator.runPassGo engine disk idx tasks).2 → idx ≤ k := by
  intro tasks
  induction tasks with
  | nil =>
    intro disk idx k hk
    simp [Extrator.runPassGo] at hk
  | cons t rest ih =>
    intro disk idx k hk
    by_cases h1 : (t.status = "concluido" ∨ t.status = "ignorado") ∨
        (t.status = "pendente" ∧ Extrator.expectedRelPath t ∈ disk)
    · rw [runPassGo_skip_snd engine disk idx t rest h1] at hk
      have := ih disk (idx + 1) k hk
      omega
    · by_cases h2 : t.status = "pendente"
      · rw [runPassGo_engine_snd engine disk idx t rest h1 h2] at hk
        rcases List.mem_cons.mp hk with hk | hk
        · omega
        · have := ih _ (idx + 1) k hk
          omega
      · rw [runPassGo_other_snd engine disk idx t rest h1 h2] at hk
        have := ih disk (idx + 1) k hk
        omega

/-- Core invariant of one pass: a completed or ignored task is returned
unchanged without invoking the engine, and a pending task whose expected
path is on disk is returned completed without invoking the engine. -/
theorem runPassGo_spec (engine : Extrator.Task → Extrator.TransferResult) :
    ∀ (tasks : List Extrator.Task) (disk : List String) (idx j : Nat) (t : Extrator.Task),
      tasks.get? j = some t →
      ((t.status = "concluido" ∨ t.status = "ignorado") →
        (Extrator.runPassGo engine disk idx tasks).1.get? j = some t
        ∧ (idx + j) ∉ (Extrator.runPassGo engine disk idx tasks).2)
      ∧ (t.status = "pendente" → Extrator.expectedRelPath t ∈ disk →
        (Extrator.runPassGo engine disk idx tasks).1.get? j = some { t with status := "concluido" }
        ∧ (idx + j) ∉ (Extrator.runPassGo engine disk idx tasks).2) := by
  intro tasks
  induction tasks with
  | nil =>
    intro disk idx j t ht
    simp at ht
  | cons hd rest ih =>
    intro disk idx j t ht
    cases j with
    | zero =>
      have hhd : hd = t := by simpa using ht
      subst hhd
      constructor
      · intro hst
        have h1 : (hd.status = "concluido" ∨ hd.status = "ignorado") ∨
            (hd.status = "pendente" ∧ Extrator.expectedRelPath hd ∈ disk) := Or.inl hst
        have hnp : ¬ hd.status = "pendente" := by
          rcases hst with h | h <;> simp [h]
        constructor
        · rw [runPassGo_skip_fst engine disk idx hd rest h1, if_neg hnp]
          rfl
        · rw [runPassGo_skip_snd engine disk idx hd rest h1]
          intro hm
          have := runPassGo_invoked_ge engine rest disk (idx + 1) (idx + 0) hm
          omega
      · intro hp hdisk
        have h1 : (hd.status = "concluido" ∨ hd.status = "ignorado") ∨
            (hd.status = "pendente" ∧ Extrator.expectedRelPath hd ∈ disk) := Or.inr ⟨hp, hdisk⟩
        constructor
        · rw [runPassGo_skip_fst engine disk idx hd rest h1, if_pos hp]
          rfl
        · rw [runPassGo_skip_snd engine disk idx hd rest h1]
          intro hm
          have := runPassGo_invoked_ge engine rest disk (idx + 1) (idx + 0) hm
          omega
    | succ j2 =>
      have ht2 : rest.get? j2 = some t := by simpa using ht
      have harith : idx + (j2 + 1) = (idx + 1) + j2 := by omega
      by_cases h1 : (hd.status = "concluido" ∨ hd.status = "ignorado") ∨
          (hd.status = "pendente" ∧ Extrator.expectedRelPath hd ∈ disk)
      · have IH := ih disk (idx + 1) j2 t ht2
        constructor
        · intro hst
          have hres := IH.1 hst
          constructor
          · rw [runPassGo_skip_fst engine disk idx hd rest h1]
            simpa using hres.1
          · rw [runPassGo_skip_snd engine disk idx hd rest h1]
            intro hm
            rw [harith] at hm
            exact hres.2 hm
        · intro hp hdisk
          have hres := IH.2 hp hdisk
          constructor
          · rw [runPassGo_skip_fst engine disk idx hd rest h1]
            simpa using hres.1
          · rw [runPassGo_skip_snd engine disk idx hd rest h1]
            intro hm
            rw [harith] at hm
            exact hres.2 hm
      · by_cases h2 : hd.status = "pendente"
        · have hsub : ∀ q, q ∈ disk →
              q ∈ (if (engine hd).status = "sucesso"
                then Extrator.expectedRelPath hd :: disk else disk) := by
            intro q hq
            by_cases hs : (engine hd).status = "sucesso" <;> simp [hs, hq]
          have IH := ih (if (engine hd).status = "sucesso"
            then Extrator.expectedRelPath hd :: disk else disk) (idx + 1) j2 t ht2
          constructor
          · intro hst
            have hres := IH.1 hst
            constructor
            · rw [runPassGo_engine_fst engine disk idx hd rest h1 h2]
              simpa using hres.1
            · rw [runPassGo_engine_snd engine disk idx hd rest h1 h2]
              intro hm
              rcases List.mem_cons.mp hm with hm | hm
              · omega
              · rw [harith] at hm
                exact hres.2 hm
          · intro hp hdisk
            have hres := IH.2 hp (hsub _ hdisk)
            constructor
            · rw [runPassGo_engine_fst engine disk idx hd rest h1 h2]
              simpa using hres.1
            · rw [runPassGo_engine_snd engine disk idx hd rest h1 h2]
              intro hm
              rcases List.mem_cons.mp hm with hm | hm
              · omega
              · rw [harith] at hm
                exact hres.2 hm
        · have IH := ih disk (idx + 1) j2 t ht2
          constructor
          · intro hst
            have hres := IH.1 hst
            constructor
            · rw [runPassGo_other_fst engine disk idx hd rest h1 h2]
              simpa using hres.1
            · rw [runPassGo_other_snd engine disk idx hd rest h1 h2]
              intro hm
              rw [harith] at hm
              exact hres.2 hm
          · intro hp hdisk
            have hres := IH.2 hp hdisk
            constructor
            · rw [runPassGo_other_fst engine disk idx hd rest h1 h2]
              simpa using hres.1
            · rw [runPassGo_other_snd engine disk idx hd rest h1 h2]
              intro hm
              rw [harith] at hm
              exact hres.2 hm

/-- C1: in one orchestration pass a completed or ignored task is
skipped untouched, and a pending task whose expected local path (pdf
renamed for provider documents, raw otherwise) is already on disk is
marked completed, in both cases without invoking the Transfer Engine on
that task. -/
theorem claim_c1_skip_and_self_heal :
    ∀ (engine : Extrator.Task → Extrator.TransferResult) (disk : List String)
      (tasks : List Extrator.Task) (j : Nat) (t : Extrator.Task),
      tasks.get? j = some t →
      ((t.status = "concluido" ∨ t.status = "ignorado") →
        (Extrator.runPass engine disk tasks).1.get? j = some t
        ∧ j ∉ (Extrator.runPass engine disk tasks).2)
      ∧ (t.status = "pendente" → Extrator.expectedRelPath t ∈ disk →
        (Extrator.runPass engine disk tasks).1.get? j =
          some { t with status := "concluido" }
        ∧ j ∉ (Extrator.runPass engine disk tasks).2) := by
  intro engine disk tasks j t ht
  have h := runPassGo_spec engine tasks disk 0 j t ht
  simpa [Extrator.runPass, Nat.zero_add] using h

/-- C1 (witness): a pending task whose file is already on disk is
self-healed to completed with no engine invocation. -/
theorem claim_c1_skip_and_self_heal_witness :
    [Extrator.c1Task].get? 0 = some Extrator.c1Task
    ∧ Extrator.c1Task.status = "pendente"
    ∧ Extrator.expectedRelPath Extrator.c1Task ∈ ["x.txt"]
    ∧ (Extrator.runPass Extrator.engineOk ["x.txt"] [Extrator.c1Task]).1.get? 0 =
        some { Extrator.c1Task with status := "concluido" }
    ∧ 0 ∉ (Extrator.runPass Extrator.engineOk ["x.txt"] [Extrator.c1Task]).2 := by
  have h := (claim_c1_skip_and_self_heal Extrator.engineOk ["x.txt"] [Extrator.c1Task] 0
    Extrator.c1Task rfl).2 rfl (by decide)
  exact ⟨rfl, rfl, by decide, h.1, h.2⟩

/-- Helper for C4: a pass over an all-completed ledger changes nothing
and invokes nothing, whatever the starting index and disk. -/
theorem runPassGo_all_completed (engine : Extrator.Task → Extrator.TransferResult) :
    ∀ (tasks : List Extrator.Task) (disk : List String) (idx : Nat),
      (∀ t ∈ tasks, t.status = "concluido") →
      Extrator.runPassGo engine disk idx tasks = (tasks, []) := by
  intro tasks
  induction tasks with
  | nil =>
    intro disk idx _
    rfl
  | cons hd rest ih =>
    intro disk idx hall
    have hhd : hd.status = "concluido" := hall hd (List.mem_cons_self hd rest)
    have h1 : (hd.status = "concluido" ∨ hd.status = "ignorado") ∨
        (hd.status = "pendente" ∧ Extrator.expectedRelPath hd ∈ disk) := Or.inl (Or.inl hhd)
    have hrest := ih disk (idx + 1) (fun t htm => hall t (List.mem_cons_of_mem hd htm))
    have hfst := runPassGo_skip_fst engine disk idx hd rest h1
    have hsnd := runPassGo_skip_snd engine disk idx hd rest h1
    rw [hrest] at hfst hsnd
    rw [if_neg (by simp [hhd])] at hfst
    exact Prod.ext hfst hsnd

/-- C4: an orchestration pass over a ledger in which every task is
completed performs zero Transfer Engine invocations and returns the
ledger unchanged. -/
theorem claim_c4_all_completed_pass_noop :
    ∀ (engine : Extrator.Task → Extrator.TransferResult) (disk : List String)
      (tasks : List Extrator.Task),
      (∀ t ∈ tasks, t.status = "concluido") →
      Extrator.runPass engine disk tasks = (tasks, []) := by
  intro engine disk tasks h
  exact runPassGo_all_completed engine tasks disk 0 h

/-- C4 (witness): a two-task all-completed ledger is returned verbatim
with an empty invocation list. -/
theorem claim_c4_all_completed_pass_noop_witness :
    (∀ t ∈ Extrator.c4Tasks, t.status = "concluido")
    ∧ Extrator.runPass Extrator.engineOk [] Extrator.c4Tasks = (Extrator.c4Tasks, []) :=
  ⟨by decide, claim_c4_all_completed_pass_noop Extrator.engineOk [] Extrator.c4Tasks (by decide)⟩
